import Mathlib

/-!
Verification of `scripts/fetch_ssq.py` (lottery-history fetch pipeline).

The development shallowly embeds the pure core of the script — the two
Table-Source row parsers, the PagedJSON-Source (sporttery) page loop and item
parser, the merge/dedup/sort step, and the orchestrator's exit-code logic —
as executable Lean functions, and proves the spec's claims about them.

Modelling boundaries, stated once here:

* HTML tokenization is abstracted: in the script, `parse_500_history_html`
  (BeautifulSoup branch) and `parse_500_history_html_regex` first locate the
  `id="tdata"` table and extract, for each `<tr>`, the list of `<td>` cell
  texts (tags stripped, whitespace trimmed).  Both embeddings below take that
  extracted form — a list of rows, each row a list of cell strings — and model
  the per-row record construction, which is where the two branches differ and
  where every claim about them lives.
* Network, JSON decoding and `time.sleep` are abstracted for the sporttery
  loop into a page oracle `Nat → PageResult`: a page request either raises
  (`fetchError`, the script's `_urllib_get` escaping), returns text that
  `json.loads` rejects (`badJson`), or yields the decoded `value.list` items.
  A Python exception escaping the function is modelled as `Except.error ()`.
* Python `re.fullmatch(r"\d+", ...)` / `r"\d{1,2}"` are modelled over ASCII
  digits (`Char.isDigit`); Python `int()` on a digit string and `f"{n:02d}"`
  are modelled by `strNat` and `format02`.
* `sorted` on Python `str` keys is code-point lexicographic order; it is
  embedded as the executable comparison `lexLe` on `List Char`, proved below
  to agree with Lean's lexicographic `≤` on `String`.
-/

namespace FetchSSQ

/-- The normalized record, `DrawRecord` of fetch_ssq.py (lines 38-61):
issue, six red numbers, the blue number and the draw date, all strings. -/
structure DrawRecord where
  issue : String
  red1 : String
  red2 : String
  red3 : String
  red4 : String
  red5 : String
  red6 : String
  blue : String
  date : String
deriving DecidableEq, Repr

/-! ### Digit matching and zero-padding (the regex parser's helpers) -/

/-- Model of `re.fullmatch(r"\d+", s)`: non-empty, all digits. -/
def matchDigits (s : String) : Bool :=
  !s.data.isEmpty && s.data.all Char.isDigit

/-- Model of `re.fullmatch(r"\d{1,2}", s)`: one or two digits. -/
def matchDigits12 (s : String) : Bool :=
  (s.data.length == 1 || s.data.length == 2) && s.data.all Char.isDigit

/-- The numeric value of a digit string, as Python `int()` computes it on a
string of ASCII digits. -/
def strNat (s : String) : Nat :=
  s.data.foldl (fun n c => n * 10 + (c.toNat - 48)) 0

/-- The ASCII digit character for `n ≤ 9`. -/
def digitChar (n : Nat) : Char :=
  match n with
  | 0 => '0' | 1 => '1' | 2 => '2' | 3 => '3' | 4 => '4'
  | 5 => '5' | 6 => '6' | 7 => '7' | 8 => '8' | _ => '9'

/-- Model of Python `f"{n:02d}"` for a non-negative `n`: two-digit zero-padded
decimal when `n ≤ 99`, the plain decimal rendering otherwise. -/
def format02 (n : Nat) : String :=
  if n < 100 then ⟨[digitChar (n / 10), digitChar (n % 10)]⟩ else toString n

/-- The regex parser's normalization `f"{int(x):02d}"` of a number cell. -/
def pad2 (s : String) : String := format02 (strNat s)

/-- Two-digit zero-padded form: exactly two ASCII digits. -/
def isPadded2 (s : String) : Bool :=
  s.data.length == 2 && s.data.all Char.isDigit

/-! ### Table-Source: the two 500.com row parsers

Input is one table row as its list of already-extracted cell texts. -/

/-- Row handling of `parse_500_history_html` (the BeautifulSoup branch,
lines 192-215): skip rows with fewer than 16 cells; cell 0 = issue,
cells 1-6 = reds, cell 7 = blue, cell 15 = date; skip the row when the issue,
the blue or any red cell is empty; otherwise emit the cell texts verbatim. -/
def parse500RowSoup (cells : List String) : Option DrawRecord :=
  if cells.length < 16 then none
  else
    let issue := cells.getD 0 ""
    let red_nums := (cells.drop 1).take 6
    let blue := cells.getD 7 ""
    let date_text := cells.getD 15 ""
    if issue = "" || blue = "" || red_nums.any (fun x => x = "") then none
    else some {
      issue := issue
      red1 := red_nums.getD 0 "", red2 := red_nums.getD 1 "", red3 := red_nums.getD 2 ""
      red4 := red_nums.getD 3 "", red5 := red_nums.getD 4 "", red6 := red_nums.getD 5 ""
      blue := blue, date := date_text }

/-- The BeautifulSoup branch of `parse_500_history_html` over the extracted
rows of the `tdata` table. -/
def parse_500_history_html_soup (rows : List (List String)) : List DrawRecord :=
  rows.filterMap parse500RowSoup

/-- Row handling of `parse_500_history_html_regex` (lines 227-257): skip rows
with fewer than 16 cells; same field mapping; validate issue against `\d+`,
each red and the blue against `\d{1,2}` (skip the row otherwise); emit reds
and blue re-rendered through `f"{int(x):02d}"`. -/
def parse500RowRegex (td_values : List String) : Option DrawRecord :=
  if td_values.length < 16 then none
  else
    let issue := td_values.getD 0 ""
    let red_nums := (td_values.drop 1).take 6
    let blue := td_values.getD 7 ""
    let date_text := td_values.getD 15 ""
    if matchDigits issue && red_nums.length == 6
        && red_nums.all matchDigits12 && matchDigits12 blue then
      some {
        issue := issue
        red1 := pad2 (red_nums.getD 0 ""), red2 := pad2 (red_nums.getD 1 "")
        red3 := pad2 (red_nums.getD 2 ""), red4 := pad2 (red_nums.getD 3 "")
        red5 := pad2 (red_nums.getD 4 ""), red6 := pad2 (red_nums.getD 5 "")
        blue := pad2 blue, date := date_text }
    else none

/-- `parse_500_history_html_regex` over the extracted rows of the table. -/
def parse_500_history_html_regex (rows : List (List String)) : List DrawRecord :=
  rows.filterMap parse500RowRegex

/-- The digit/shape validation the regex row parser performs on a
(≥16-cell) row. -/
def numsValid (td_values : List String) : Bool :=
  matchDigits (td_values.getD 0 "")
    && ((td_values.drop 1).take 6).length == 6
    && ((td_values.drop 1).take 6).all matchDigits12
    && matchDigits12 (td_values.getD 7 "")

/-- The record the regex row parser emits for a validated row. -/
def regexRecordOf (td_values : List String) : DrawRecord :=
  { issue := td_values.getD 0 ""
    red1 := pad2 (td_values.getD 1 ""), red2 := pad2 (td_values.getD 2 "")
    red3 := pad2 (td_values.getD 3 ""), red4 := pad2 (td_values.getD 4 "")
    red5 := pad2 (td_values.getD 5 ""), red6 := pad2 (td_values.getD 6 "")
    blue := pad2 (td_values.getD 7 ""), date := td_values.getD 15 "" }

/-- All seven number fields of a record are in two-digit zero-padded form. -/
def paddedNums (r : DrawRecord) : Bool :=
  isPadded2 r.red1 && isPadded2 r.red2 && isPadded2 r.red3 && isPadded2 r.red4
    && isPadded2 r.red5 && isPadded2 r.red6 && isPadded2 r.blue

/-- A row that is well formed in the sense of the strategy-equivalence claim,
strengthened to exactly-two-digit number cells: at least 16 cells, digit-only
issue, and each of cells 1-7 exactly two digits. -/
def wellFormedRow2 (cells : List String) : Bool :=
  (16 ≤ cells.length : Bool)
    && matchDigits (cells.getD 0 "")
    && ((cells.drop 1).take 6).all isPadded2
    && isPadded2 (cells.getD 7 "")

/-! ### PagedJSON-Source: the sporttery fetch loop -/

/-- One item of a sporttery page's `value.list`, with the optional JSON string
fields the script reads (lines 311-314). `none` models an absent key. -/
structure SportItem where
  lotteryDrawNum : Option String
  issue : Option String
  lotteryDrawResult : Option String
  lotteryDrawTime : Option String
  date : Option String
deriving DecidableEq, Repr

/-- Python `a or b or ... or ""` over optional strings: the first value that
is present and non-empty, else `""`. -/
def firstTruthy : List (Option String) → String
  | [] => ""
  | none :: rest => firstTruthy rest
  | some s :: rest => if s = "" then firstTruthy rest else s

/-- The delimiter class of `re.split(r"[ ,;+]", code)`. -/
def isDelim (c : Char) : Bool :=
  c = ' ' || c = ',' || c = ';' || c = '+'

/-- Model of Python `str.strip()`: drop leading and trailing whitespace. -/
def pyStrip (s : String) : String :=
  ⟨((s.data.dropWhile Char.isWhitespace).reverse.dropWhile Char.isWhitespace).reverse⟩

/-- `[n for n in re.split(r"[ ,;+]", code) if n]`: split on the delimiter
class, keep the non-empty pieces. -/
def splitNums (s : String) : List String :=
  ((s.data.splitOnP isDelim).filter (fun t => t ≠ [])).map List.asString

/-- Per-item record construction of `fetch_from_sporttery_with_urllib`
(lines 311-333): issue from `lotteryDrawNum` falling back to `issue`; the
combined result string stripped, then split; skip when issue or code is
empty; require at least 7 tokens; reds = tokens 0-5 and blue = token 6,
copied verbatim. -/
def parseSportItem (it : SportItem) : Option DrawRecord :=
  let issue := firstTruthy [it.lotteryDrawNum, it.issue]
  let code := pyStrip (firstTruthy [it.lotteryDrawResult])
  let open_time := firstTruthy [it.lotteryDrawTime, it.date]
  if issue = "" || code = "" then none
  else
    let nums := splitNums code
    if 7 ≤ nums.length then
      some {
        issue := issue
        red1 := nums.getD 0 "", red2 := nums.getD 1 "", red3 := nums.getD 2 ""
        red4 := nums.getD 3 "", red5 := nums.getD 4 "", red6 := nums.getD 5 ""
        blue := nums.getD 6 "", date := open_time }
    else none

/-- Outcome of requesting and decoding one sporttery page: the request raises
(`fetchError` — only `json.loads` is inside the try/except at lines 303-307),
the text fails JSON decoding (`badJson`), or the decoded `value.list` items
(`[]` when the key path is absent or the list empty). -/
inductive PageResult where
  | fetchError : PageResult
  | badJson : PageResult
  | page : List SportItem → PageResult
deriving DecidableEq, Repr

/-- The items a page outcome carries. -/
def pageItems : PageResult → List SportItem
  | .page items => items
  | _ => []

/-- The page loop of `fetch_from_sporttery_with_urllib` (lines 286-336),
recursing on the remaining page budget: a raising request propagates the
exception (`Except.error ()`), a JSON-decode failure or an empty item list
breaks out of the loop with the accumulated records, and otherwise the page's
parsed items are appended and the next page fetched. -/
def sportteryLoop (pages : Nat → PageResult) :
    Nat → Nat → List DrawRecord → Except Unit (List DrawRecord)
  | _, 0, acc => .ok acc
  | page_no, fuel + 1, acc =>
    match pages page_no with
    | .fetchError => .error ()
    | .badJson => .ok acc
    | .page items =>
      if items = [] then .ok acc
      else sportteryLoop pages (page_no + 1) fuel
        (acc ++ items.filterMap parseSportItem)

/-- `fetch_from_sporttery_with_urllib(max_pages)`: run the page loop from
page 1 with an empty accumulator. -/
def fetch_from_sporttery_with_urllib (pages : Nat → PageResult)
    (max_pages : Nat) : Except Unit (List DrawRecord) :=
  sportteryLoop pages 1 max_pages []

/-- The records the loop accumulates from `k` consecutive pages starting at
page `start`, each page contributing its parsed items in order. -/
def sportteryAccum (pages : Nat → PageResult) (start : Nat) : Nat → List DrawRecord
  | 0 => []
  | k + 1 =>
    (pageItems (pages start)).filterMap parseSportItem
      ++ sportteryAccum pages (start + 1) k

/-! ### Merger: dedupe_and_sort -/

/-- Executable code-point lexicographic order on character lists — the order
Python's `sorted` uses on `str` keys. -/
def lexLe : List Char → List Char → Bool
  | [], _ => true
  | _ :: _, [] => false
  | a :: as, b :: bs =>
    if a.toNat < b.toNat then true
    else if a.toNat = b.toNat then lexLe as bs
    else false

/-- The key order of `sorted(by_issue.keys())`. -/
def issueLe (a b : String) : Prop := lexLe a.data b.data = true

instance : DecidableRel issueLe := fun a b =>
  inferInstanceAs (Decidable (lexLe a.data b.data = true))

/-- The value `by_issue[k]` holds after the insertion loop of
`dedupe_and_sort` (lines 464-468): the last record of the input whose issue
is `k`, if any. -/
def by_issue_get (records : List DrawRecord) (k : String) : Option DrawRecord :=
  (records.filter (fun r => r.issue = k)).getLast?

/-- The key set of `by_issue`: the distinct non-empty issues of the input
(records with an empty issue are skipped by the loop). -/
def by_issue_keys (records : List DrawRecord) : List String :=
  ((records.filter (fun r => r.issue ≠ "")).map (fun r => r.issue)).dedup

/-- `dedupe_and_sort` (lines 463-469): build `by_issue` by last-write-wins
insertion, then emit `by_issue[k]` for `k` over the sorted keys. -/
def dedupe_and_sort (records : List DrawRecord) : List DrawRecord :=
  (List.insertionSort issueLe (by_issue_keys records)).filterMap
    (by_issue_get records)

/-! ### Orchestrator: source selection and exit code of main -/

/-- The `--source` choice (line 532). -/
inductive SourceChoice where
  | all : SourceChoice
  | sporttery : SourceChoice
  | s500 : SourceChoice
  | cwl : SourceChoice
deriving DecidableEq, Repr

/-- The inputs that determine main's control flow: the selftest flag, the
source choice, and whether the `requests` library imported. -/
structure Config where
  selftest : Bool
  source : SourceChoice
  requests : Bool
deriving DecidableEq, Repr

/-- The records main accumulates (lines 548-579), with each fetch call's
contribution abstracted as a list — the empty list when the call raised,
since every call sits in a try/except that swallows the exception before
`all_records.extend` runs.  The sporttery branch uses the requests-based
path when `requests` imported, the urllib fallback otherwise; the cwl branch
only runs when `requests` did NOT import (line 575). -/
def selectedRecords (cfg : Config)
    (sportteryReq sportteryUrl records500 cwlUrl : List DrawRecord) :
    List DrawRecord :=
  (if cfg.source = .all ∨ cfg.source = .sporttery then
      (if cfg.requests then sportteryReq else sportteryUrl)
    else [])
  ++ (if cfg.source = .all ∨ cfg.source = .s500 then records500 else [])
  ++ (if (cfg.source = .all ∨ cfg.source = .cwl) ∧ ¬cfg.requests then cwlUrl
      else [])

/-- The exit code of `main` (lines 541-588): 0 for a selftest run
(`run_selftest`'s only return, line 526); otherwise 2 when the merged record
collection is empty, else 0. -/
def mainExit (cfg : Config)
    (sportteryReq sportteryUrl records500 cwlUrl : List DrawRecord) : Nat :=
  if cfg.selftest then 0
  else if dedupe_and_sort
      (selectedRecords cfg sportteryReq sportteryUrl records500 cwlUrl) = [] then 2
  else 0

/-! ### Concrete inputs used by counterexamples and witnesses -/

/-- The 500.com-style sample row embedded in `run_selftest` (lines 513-521):
issue 2023002, reds 08-13, blue 16, eight filler cells, date 2023-01-05. -/
def sampleRow : List String :=
  ["2023002", "08", "09", "10", "11", "12", "13", "16",
   "", "", "", "", "", "", "", "2023-01-05"]

/-- The sample row with its first red written `8` instead of `08` — still a
row of 16 cells whose issue is all digits and whose number cells are one or
two digits. -/
def cexRow : List String :=
  ["2023002", "8", "09", "10", "11", "12", "13", "16",
   "", "", "", "", "", "", "", "2023-01-05"]

/-- The sporttery sample item embedded in `run_selftest` (lines 486-491) and
quoted by the spec's PagedJSON scenario. -/
def sampleItem : SportItem :=
  { lotteryDrawNum := some "2023001", issue := none,
    lotteryDrawResult := some "01 02 03 04 05 06+07",
    lotteryDrawTime := some "2023-01-03", date := none }

/-- A page oracle whose first page succeeds with one item and whose second
request raises. -/
def pagesThenRaise : Nat → PageResult :=
  fun n => if n = 1 then .page [sampleItem] else .fetchError

/-- A page oracle whose first page succeeds with one item and whose second
page returns undecodable JSON. -/
def pagesThenBadJson : Nat → PageResult :=
  fun n => if n = 1 then .page [sampleItem] else .badJson

/-- The record of the selftest's 500.com sample row. -/
def recA : DrawRecord :=
  ⟨"2023002", "08", "09", "10", "11", "12", "13", "16", "2023-01-05"⟩

/-- A record with the same issue as `recA` but different content. -/
def recB : DrawRecord :=
  ⟨"2023002", "01", "02", "03", "04", "05", "06", "07", "1999-01-01"⟩

/-! ## Lemmas about digits and zero-padding -/

theorem digit_le (c : Char) (h : c.isDigit = true) :
    48 ≤ c.toNat ∧ c.toNat ≤ 57 := by
  simp only [Char.isDigit, Bool.and_eq_true, decide_eq_true_eq] at h
  exact ⟨h.1, h.2⟩

theorem digitChar_toNat (c : Char) (h : c.isDigit = true) :
    digitChar (c.toNat - 48) = c := by
  obtain ⟨h1, h2⟩ := digit_le c h
  apply Char.ext
  apply UInt32.toNat.inj
  have h1' : 48 ≤ c.val.toNat := h1
  have h2' : c.val.toNat ≤ 57 := h2
  show (digitChar (c.val.toNat - 48)).val.toNat = c.val.toNat
  interval_cases hv : c.val.toNat <;> decide

theorem digitChar_isDigit (n : Nat) : (digitChar n).isDigit = true := by
  match n with
  | 0 | 1 | 2 | 3 | 4 | 5 | 6 | 7 | 8 => decide
  | k + 9 => show ('9').isDigit = true; decide

theorem strNat_single (a : Char) : strNat ⟨[a]⟩ = a.toNat - 48 := by
  simp [strNat]

theorem strNat_pair (a b : Char) :
    strNat ⟨[a, b]⟩ = (a.toNat - 48) * 10 + (b.toNat - 48) := by
  simp [strNat]

theorem pad2_eq_self (s : String) (h : isPadded2 s = true) : pad2 s = s := by
  obtain ⟨l⟩ := s
  simp only [isPadded2, Bool.and_eq_true, beq_iff_eq] at h
  obtain ⟨hlen, hdig⟩ := h
  match l, hlen with
  | [a, b], _ =>
    simp only [List.all_cons, List.all_nil, Bool.and_eq_true, Bool.and_true] at hdig
    obtain ⟨ha, hb⟩ := hdig
    obtain ⟨ha1, ha2⟩ := digit_le a ha
    obtain ⟨hb1, hb2⟩ := digit_le b hb
    show format02 (strNat ⟨[a, b]⟩) = _
    rw [strNat_pair]
    have hlt : (a.toNat - 48) * 10 + (b.toNat - 48) < 100 := by omega
    rw [format02, if_pos hlt]
    have e1 : ((a.toNat - 48) * 10 + (b.toNat - 48)) / 10 = a.toNat - 48 := by omega
    have e2 : ((a.toNat - 48) * 10 + (b.toNat - 48)) % 10 = b.toNat - 48 := by omega
    rw [e1, e2, digitChar_toNat a ha, digitChar_toNat b hb]

theorem matchDigits12_strNat_lt (s : String) (h : matchDigits12 s = true) :
    strNat s < 100 := by
  obtain ⟨l⟩ := s
  simp only [matchDigits12, Bool.and_eq_true, Bool.or_eq_true, beq_iff_eq] at h
  obtain ⟨hlen, hdig⟩ := h
  match l, hlen with
  | [a], _ =>
    simp only [List.all_cons, List.all_nil, Bool.and_true] at hdig
    obtain ⟨_, h2⟩ := digit_le a hdig
    rw [strNat_single]; omega
  | [a, b], _ =>
    simp only [List.all_cons, List.all_nil, Bool.and_eq_true, Bool.and_true] at hdig
    obtain ⟨_, ha2⟩ := digit_le a hdig.1
    obtain ⟨_, hb2⟩ := digit_le b hdig.2
    rw [strNat_pair]; omega

theorem pad2_isPadded2 (s : String) (h : matchDigits12 s = true) :
    isPadded2 (pad2 s) = true := by
  have hlt := matchDigits12_strNat_lt s h
  rw [pad2, format02, if_pos hlt]
  simp [isPadded2, digitChar_isDigit]

theorem isPadded2_matchDigits12 (s : String) (h : isPadded2 s = true) :
    matchDigits12 s = true := by
  simp only [isPadded2, Bool.and_eq_true, beq_iff_eq] at h
  simp [matchDigits12, h.1, h.2]

theorem matchDigits_ne_empty (s : String) (h : matchDigits s = true) :
    s ≠ "" := by
  simp only [matchDigits, Bool.and_eq_true, Bool.not_eq_true'] at h
  intro he
  subst he
  simp at h

theorem isPadded2_ne_empty (s : String) (h : isPadded2 s = true) :
    s ≠ "" := by
  simp only [isPadded2, Bool.and_eq_true, beq_iff_eq] at h
  intro he
  subst he
  simp at h

/-! ## Lemmas about the two Table-Source row parsers -/

theorem getD_drop_take (cells : List String) (i : Nat) (hi : i < 6) :
    ((cells.drop 1).take 6).getD i "" = cells.getD (i + 1) "" := by
  simp [List.getD_eq_getElem?_getD, List.getElem?_take, hi, List.getElem?_drop,
    Nat.add_comm 1 i]

theorem length_drop_take (cells : List String) (h : 16 ≤ cells.length) :
    ((cells.drop 1).take 6).length = 6 := by
  simp only [List.length_take, List.length_drop]
  omega

theorem getD_mem_of_lt (l : List String) (n : Nat) (h : n < l.length) :
    l.getD n "" ∈ l := by
  rw [List.getD_eq_getElem?_getD, List.getElem?_eq_getElem h]
  exact List.getElem_mem h

theorem all_drop_take (cells : List String) (p : String → Bool)
    (hlen : 16 ≤ cells.length)
    (h : ((cells.drop 1).take 6).all p = true) (i : Nat) (hi : i < 6) :
    p (cells.getD (i + 1) "") = true := by
  rw [← getD_drop_take cells i hi]
  rw [List.all_eq_true] at h
  apply h
  apply getD_mem_of_lt
  rw [length_drop_take cells hlen]
  exact hi

theorem parse500RowRegex_valid (cells : List String)
    (h16 : 16 ≤ cells.length) (hv : numsValid cells = true) :
    parse500RowRegex cells = some (regexRecordOf cells) := by
  rw [parse500RowRegex, if_neg (by omega), if_pos (by
    simpa [numsValid] using hv)]
  simp [regexRecordOf, getD_drop_take]

theorem parse500RowRegex_short (cells : List String)
    (h16 : cells.length < 16) : parse500RowRegex cells = none := by
  rw [parse500RowRegex, if_pos h16]

theorem parse500RowRegex_invalid (cells : List String)
    (h16 : 16 ≤ cells.length) (hv : numsValid cells = false) :
    parse500RowRegex cells = none := by
  rw [parse500RowRegex, if_neg (by omega), if_neg (by
    simpa [numsValid] using hv)]

theorem regexRecordOf_padded (cells : List String)
    (h16 : 16 ≤ cells.length) (hv : numsValid cells = true) :
    paddedNums (regexRecordOf cells) = true := by
  simp only [numsValid, Bool.and_eq_true] at hv
  obtain ⟨⟨⟨_, _⟩, hall⟩, hblue⟩ := hv
  simp only [paddedNums, regexRecordOf, Bool.and_eq_true]
  refine ⟨⟨⟨⟨⟨⟨?_, ?_⟩, ?_⟩, ?_⟩, ?_⟩, ?_⟩, ?_⟩
  all_goals first
    | exact pad2_isPadded2 _ hblue
    | exact pad2_isPadded2 _ (all_drop_take cells _ h16 hall _ (by omega))

theorem rowSoup_eq_rowRegex (cells : List String)
    (h : wellFormedRow2 cells = true) :
    parse500RowSoup cells = parse500RowRegex cells := by
  simp only [wellFormedRow2, Bool.and_eq_true, decide_eq_true_eq] at h
  obtain ⟨⟨⟨h16, hIssue⟩, hReds⟩, hBlue⟩ := h
  have hv : numsValid cells = true := by
    simp only [numsValid, Bool.and_eq_true]
    refine ⟨⟨⟨hIssue, ?_⟩, ?_⟩, isPadded2_matchDigits12 _ hBlue⟩
    · rw [length_drop_take cells h16]; rfl
    · rw [List.all_eq_true] at hReds ⊢
      intro x hx
      exact isPadded2_matchDigits12 _ (hReds x hx)
  have hpad : ∀ i, i < 6 →
      pad2 (cells.getD (i + 1) "") = cells.getD (i + 1) "" := by
    intro i hi
    exact pad2_eq_self _ (all_drop_take cells _ h16 hReds i hi)
  rw [parse500RowRegex_valid cells h16 hv, parse500RowSoup,
    if_neg (by omega), if_neg]
  · have e : ∀ i, i < 6 →
        pad2 (cells[i + 1]?.getD "") = cells[i + 1]?.getD "" := by
      intro i hi
      simp only [← List.getD_eq_getElem?_getD]
      exact hpad i hi
    have e7 : pad2 (cells[7]?.getD "") = cells[7]?.getD "" := by
      simp only [← List.getD_eq_getElem?_getD]
      exact pad2_eq_self _ hBlue
    simp [regexRecordOf, getD_drop_take]
    exact ⟨(e 0 (by omega)).symm, (e 1 (by omega)).symm, (e 2 (by omega)).symm,
      (e 3 (by omega)).symm, (e 4 (by omega)).symm, (e 5 (by omega)).symm,
      e7.symm⟩
  · intro hc
    simp only [Bool.or_eq_true, decide_eq_true_eq, List.any_eq_true,
      decide_eq_true_eq] at hc
    rcases hc with (h0 | h7) | hex
    · exact matchDigits_ne_empty _ hIssue h0
    · exact isPadded2_ne_empty _ hBlue h7
    · obtain ⟨x, hx, hx0⟩ := hex
      rw [List.all_eq_true] at hReds
      exact isPadded2_ne_empty x (hReds x hx) hx0

/-! ## Claim C1 -/

/-- C1, counterexample: the structural (BeautifulSoup) branch violates the
claim.  `cexRow` is a table row with 16 cells, an all-digit issue cell, and
one-or-two-digit number cells, yet the branch emits its first red number as
`"8"` — not in two-digit zero-padded form. -/
theorem claim_C1_counterexample :
    (16 ≤ cexRow.length
      ∧ matchDigits (cexRow.getD 0 "") = true
      ∧ ((cexRow.drop 1).take 6).all matchDigits12 = true
      ∧ matchDigits12 (cexRow.getD 7 "") = true)
    ∧ (parse_500_history_html_soup [cexRow]).map (fun r => r.red1) = ["8"]
    ∧ isPadded2 "8" = false := by
  decide

/-- C1 (amended): the regex-based Table-Source parser satisfies the claim.
For a row of at least 16 cells, if the issue cell is all digits and the six
primary-number cells and the secondary-number cell are each one or two
digits (`numsValid`), the row yields exactly one record, whose primary and
secondary numbers are all in two-digit zero-padded form; a row with fewer
than 16 cells, or one failing the digit validation, yields no record.
(`parse_500_history_html_regex` is the row-wise `filterMap` of
`parse500RowRegex`, so `some`/`none` is exactly one record/no record from
the row.) -/
theorem claim_C1_regex_row_padded (cells : List String) :
    (16 ≤ cells.length → numsValid cells = true →
        parse500RowRegex cells = some (regexRecordOf cells)
          ∧ paddedNums (regexRecordOf cells) = true)
    ∧ (cells.length < 16 → parse500RowRegex cells = none)
    ∧ (16 ≤ cells.length → numsValid cells = false →
        parse500RowRegex cells = none) := by
  refine ⟨fun h16 hv => ⟨?_, ?_⟩, fun h16 => ?_, fun h16 hv => ?_⟩
  · exact parse500RowRegex_valid cells h16 hv
  · exact regexRecordOf_padded cells h16 hv
  · exact parse500RowRegex_short cells h16
  · exact parse500RowRegex_invalid cells h16 hv

/-! ## Claim C2 -/

/-- C2, counterexample: on a well-formed row in the claim's sense (16 cells,
digit-only issue, one-or-two-digit number fields) the two strategies
disagree: the structural branch copies the one-digit red `"8"` verbatim
while the regex fallback pads it to `"08"`. -/
theorem claim_C2_counterexample :
    (16 ≤ cexRow.length
      ∧ matchDigits (cexRow.getD 0 "") = true
      ∧ ((cexRow.drop 1).take 6).all matchDigits12 = true
      ∧ matchDigits12 (cexRow.getD 7 "") = true)
    ∧ parse_500_history_html_soup [cexRow]
        ≠ parse_500_history_html_regex [cexRow] := by
  decide

/-- C2 (amended): the two strategies produce identical record sequences on
table input whose rows are well formed with every number field already in
two-digit form — at least 16 cells per row, digit-only issue, and cells 1-7
each exactly two digits. -/
theorem claim_C2_strategies_agree (rows : List (List String))
    (h : ∀ row ∈ rows, wellFormedRow2 row = true) :
    parse_500_history_html_soup rows = parse_500_history_html_regex rows := by
  induction rows with
  | nil => rfl
  | cons row rest ih =>
    have hrow := rowSoup_eq_rowRegex row (h row (List.mem_cons_self row rest))
    have hrest := ih (fun r hr => h r (List.mem_cons_of_mem row hr))
    simp only [parse_500_history_html_soup, parse_500_history_html_regex,
      List.filterMap_cons] at *
    rw [hrow, hrest]

/-- C2, witness: the amended equivalence evaluated at the selftest sample
row, on which both strategies produce the same single record. -/
theorem claim_C2_witness :
    parse_500_history_html_soup [sampleRow]
      = parse_500_history_html_regex [sampleRow] :=
  claim_C2_strategies_agree [sampleRow] (by decide)

/-! ## Lemmas about the sporttery page loop -/

theorem sportteryLoop_spec (pages : Nat → PageResult) :
    ∀ (k fuel start : Nat) (acc : List DrawRecord), k < fuel →
      (∀ i, start ≤ i → i < start + k → ∃ l, pages i = .page l ∧ l ≠ []) →
      (pages (start + k) = .badJson →
          sportteryLoop pages start fuel acc
            = .ok (acc ++ sportteryAccum pages start k))
        ∧ (pages (start + k) = .fetchError →
          sportteryLoop pages start fuel acc = .error ()) := by
  intro k
  induction k with
  | zero =>
    intro fuel start acc hk _
    obtain ⟨f, rfl⟩ : ∃ f, fuel = f + 1 := ⟨fuel - 1, by omega⟩
    rw [Nat.add_zero]
    constructor
    · intro hbad
      simp [sportteryLoop, hbad, sportteryAccum]
    · intro herr
      simp [sportteryLoop, herr]
  | succ k ih =>
    intro fuel start acc hk hgood
    obtain ⟨f, rfl⟩ : ∃ f, fuel = f + 1 := ⟨fuel - 1, by omega⟩
    obtain ⟨l, hl, hlne⟩ := hgood start (Nat.le_refl _) (by omega)
    have step : sportteryLoop pages start (f + 1) acc
        = sportteryLoop pages (start + 1) f
            (acc ++ l.filterMap parseSportItem) := by
      simp [sportteryLoop, hl, hlne]
    have ihres := ih f (start + 1) (acc ++ l.filterMap parseSportItem)
      (by omega) (fun i h1 h2 => hgood i (by omega) (by omega))
    have hshift : start + 1 + k = start + (k + 1) := by omega
    rw [hshift] at ihres
    constructor
    · intro hbad
      rw [step, ihres.1 hbad, sportteryAccum]
      simp [pageItems, hl]
    · intro herr
      rw [step, ihres.2 herr]

/-! ## Claim C3 -/

/-- C3, counterexample: with a page oracle whose page 1 succeeds (yielding
one parsed record) and whose page 2 request raises, the fetch does not
return the accumulated records — the exception escapes the source boundary
(`_urllib_get` is outside the function's try/except). -/
theorem claim_C3_counterexample :
    fetch_from_sporttery_with_urllib pagesThenRaise 2 = .error ()
      ∧ (pageItems (pagesThenRaise 1)).filterMap parseSportItem ≠ [] := by
  exact ⟨rfl, by decide⟩

/-- C3 (amended): only a JSON-decode failure stops pagination and returns
the records accumulated from the pages before it without raising; a page
request failure instead propagates an exception past the source boundary
(discarding the accumulated records).  `n` is the first failing page,
every earlier page returning a non-empty item list. -/
theorem claim_C3_decode_failure_only (pages : Nat → PageResult)
    (max_pages n : Nat) (h1 : 1 ≤ n) (h2 : n ≤ max_pages)
    (hgood : ∀ i, 1 ≤ i → i < n → ∃ l, pages i = .page l ∧ l ≠ []) :
    (pages n = .badJson →
        fetch_from_sporttery_with_urllib pages max_pages
          = .ok (sportteryAccum pages 1 (n - 1)))
      ∧ (pages n = .fetchError →
        fetch_from_sporttery_with_urllib pages max_pages = .error ()) := by
  have h := sportteryLoop_spec pages (n - 1) max_pages 1 [] (by omega)
    (fun i hi1 hi2 => hgood i hi1 (by omega))
  rw [show 1 + (n - 1) = n by omega] at h
  simpa [fetch_from_sporttery_with_urllib] using h

/-- C3, witness: the amended theorem evaluated at a two-page oracle whose
second page fails to decode: the fetch returns exactly the records of
page 1. -/
theorem claim_C3_witness :
    fetch_from_sporttery_with_urllib pagesThenBadJson 5
      = .ok (sportteryAccum pagesThenBadJson 1 1) :=
  (claim_C3_decode_failure_only pagesThenBadJson 5 2 (by omega) (by omega)
    (fun i hi1 hi2 => by
      have hi : i = 1 := by omega
      subst hi
      exact ⟨[sampleItem], rfl, by decide⟩)).1 rfl

/-! ## Claim C4 -/

theorem splitNums_empty : splitNums "" = [] := rfl

/-- C4: a PagedJSON item whose issue (as the script computes it) is
non-empty and whose stripped result string splits on the delimiter class
space/comma/semicolon/plus into at least 7 non-empty tokens yields exactly
one record: the six primary numbers are tokens 0-5 and the secondary number
is token 6, all copied verbatim (no re-padding), with the item's date
string. -/
theorem claim_C4_item_verbatim (it : SportItem)
    (hIssue : firstTruthy [it.lotteryDrawNum, it.issue] ≠ "")
    (hTok : 7 ≤ (splitNums (pyStrip (firstTruthy [it.lotteryDrawResult]))).length) :
    parseSportItem it = some {
      issue := firstTruthy [it.lotteryDrawNum, it.issue]
      red1 := (splitNums (pyStrip (firstTruthy [it.lotteryDrawResult]))).getD 0 ""
      red2 := (splitNums (pyStrip (firstTruthy [it.lotteryDrawResult]))).getD 1 ""
      red3 := (splitNums (pyStrip (firstTruthy [it.lotteryDrawResult]))).getD 2 ""
      red4 := (splitNums (pyStrip (firstTruthy [it.lotteryDrawResult]))).getD 3 ""
      red5 := (splitNums (pyStrip (firstTruthy [it.lotteryDrawResult]))).getD 4 ""
      red6 := (splitNums (pyStrip (firstTruthy [it.lotteryDrawResult]))).getD 5 ""
      blue := (splitNums (pyStrip (firstTruthy [it.lotteryDrawResult]))).getD 6 ""
      date := firstTruthy [it.lotteryDrawTime, it.date] } := by
  have hcode : pyStrip (firstTruthy [it.lotteryDrawResult]) ≠ "" := by
    intro he
    rw [he, splitNums_empty] at hTok
    simp at hTok
  rw [parseSportItem, if_neg, if_pos hTok]
  intro hc
  simp only [Bool.or_eq_true, decide_eq_true_eq] at hc
  rcases hc with h | h
  · exact hIssue h
  · exact hcode h

/-- C4, witness: the theorem evaluated at the spec's PagedJSON scenario
item, yielding the scenario's record. -/
theorem claim_C4_witness :
    parseSportItem sampleItem = some {
      issue := firstTruthy [sampleItem.lotteryDrawNum, sampleItem.issue]
      red1 := (splitNums (pyStrip (firstTruthy [sampleItem.lotteryDrawResult]))).getD 0 ""
      red2 := (splitNums (pyStrip (firstTruthy [sampleItem.lotteryDrawResult]))).getD 1 ""
      red3 := (splitNums (pyStrip (firstTruthy [sampleItem.lotteryDrawResult]))).getD 2 ""
      red4 := (splitNums (pyStrip (firstTruthy [sampleItem.lotteryDrawResult]))).getD 3 ""
      red5 := (splitNums (pyStrip (firstTruthy [sampleItem.lotteryDrawResult]))).getD 4 ""
      red6 := (splitNums (pyStrip (firstTruthy [sampleItem.lotteryDrawResult]))).getD 5 ""
      blue := (splitNums (pyStrip (firstTruthy [sampleItem.lotteryDrawResult]))).getD 6 ""
      date := firstTruthy [sampleItem.lotteryDrawTime, sampleItem.date] } :=
  claim_C4_item_verbatim sampleItem (by decide) (by decide)

/-! ## The issue order: lexLe agrees with lexicographic String order -/

theorem char_lt_iff (c d : Char) : c < d ↔ c.toNat < d.toNat :=
  ⟨fun h => h, fun h => h⟩

theorem char_toNat_inj (c d : Char) (h : c.toNat = d.toNat) : c = d :=
  Char.ext (UInt32.toNat.inj h)

theorem lexLe_iff_not_lex :
    ∀ x y : List Char, lexLe x y = true ↔ ¬ List.Lex (· < ·) y x
  | [], y => iff_of_true rfl (List.Lex.not_nil_right _ _)
  | a :: as, [] => by
    apply iff_of_false
    · simp [lexLe]
    · intro h
      exact h (List.Lex.nil)
  | a :: as, b :: bs => by
    rw [lexLe]
    rcases Nat.lt_trichotomy a.toNat b.toNat with hlt | heq | hgt
    · rw [if_pos hlt]
      apply iff_of_true rfl
      intro h
      cases h with
      | rel hba => exact absurd ((char_lt_iff _ _).mp hba) (by omega)
      | cons h2 => omega
    · have hab : a = b := char_toNat_inj a b heq
      subst hab
      rw [if_neg (by omega), if_pos rfl]
      rw [lexLe_iff_not_lex as bs]
      constructor
      · intro h hcon
        exact h (List.Lex.cons_iff.mp hcon)
      · intro h hcon
        exact h (List.Lex.cons hcon)
    · rw [if_neg (by omega), if_neg (by omega)]
      apply iff_of_false
      · simp
      · intro h
        exact h (List.Lex.rel ((char_lt_iff _ _).mpr hgt))

theorem issueLe_iff_le (a b : String) : issueLe a b ↔ a ≤ b := by
  rw [issueLe, lexLe_iff_not_lex]
  have h1 : List.Lex (· < ·) b.data a.data ↔ b < a := by
    rw [String.lt_iff_toList_lt]
    exact ⟨fun h => h, fun h => h⟩
  rw [h1]
  exact not_lt

instance : IsTotal String issueLe :=
  ⟨fun a b => (le_total a b).imp (issueLe_iff_le a b).mpr (issueLe_iff_le b a).mpr⟩

instance : IsTrans String issueLe :=
  ⟨fun a b c hab hbc => (issueLe_iff_le a c).mpr
    (le_trans ((issueLe_iff_le a b).mp hab) ((issueLe_iff_le b c).mp hbc))⟩

/-! ## Lemmas about dedupe_and_sort -/

theorem by_issue_get_some (records : List DrawRecord) (k : String)
    (r : DrawRecord) (h : by_issue_get records k = some r) :
    r ∈ records ∧ r.issue = k := by
  rw [by_issue_get] at h
  obtain ⟨l', hl'⟩ := List.getLast?_eq_some_iff.mp h
  have hmem : r ∈ records.filter (fun x => x.issue = k) := by
    rw [hl']
    simp
  rw [List.mem_filter] at hmem
  exact ⟨hmem.1, by simpa using hmem.2⟩

theorem mem_by_issue_keys (records : List DrawRecord) (k : String) :
    k ∈ by_issue_keys records ↔ k ≠ "" ∧ ∃ r ∈ records, r.issue = k := by
  rw [by_issue_keys, List.mem_dedup, List.mem_map]
  constructor
  · rintro ⟨r, hr, rfl⟩
    rw [List.mem_filter] at hr
    exact ⟨by simpa using hr.2, r, hr.1, rfl⟩
  · rintro ⟨hne, r, hr, rfl⟩
    exact ⟨r, List.mem_filter.mpr ⟨hr, by simpa using hne⟩, rfl⟩

theorem by_issue_get_isSome (records : List DrawRecord) (k : String)
    (h : k ∈ by_issue_keys records) :
    ∃ r, by_issue_get records k = some r := by
  rw [mem_by_issue_keys] at h
  obtain ⟨_, r, hr, hrk⟩ := h
  rw [by_issue_get]
  have : r ∈ records.filter (fun x => x.issue = k) :=
    List.mem_filter.mpr ⟨hr, by simpa using hrk⟩
  rcases hlast : (records.filter (fun x => x.issue = k)).getLast? with _ | w
  · rw [List.getLast?_eq_none_iff] at hlast
    rw [hlast] at this
    exact absurd this (List.not_mem_nil r)
  · exact ⟨w, hlast⟩

theorem filterMap_filter_unique (records : List DrawRecord)
    (keys : List String) (k : String) (hnd : keys.Nodup) :
    (keys.filterMap (by_issue_get records)).filter (fun r => r.issue = k)
      = if k ∈ keys then (by_issue_get records k).toList else [] := by
  induction keys with
  | nil => simp
  | cons q qs ih =>
    rw [List.nodup_cons] at hnd
    obtain ⟨hq, hqs⟩ := hnd
    rcases hfk : by_issue_get records q with _ | r
    · rw [List.filterMap_cons_none hfk, ih hqs]
      by_cases hkq : k = q
      · subst hkq
        rw [if_neg hq, if_pos (List.mem_cons_self _ _), hfk]
        rfl
      · by_cases hkm : k ∈ qs
        · rw [if_pos hkm, if_pos (List.mem_cons_of_mem _ hkm)]
        · rw [if_neg hkm, if_neg (by
            intro hc
            rcases List.mem_cons.mp hc with h | h
            · exact hkq h
            · exact hkm h)]
    · have hr := (by_issue_get_some records q r hfk).2
      rw [List.filterMap_cons_some hfk, List.filter_cons]
      by_cases hkq : k = q
      · subst hkq
        rw [if_pos (by simpa using hr), ih hqs, if_neg hq,
          if_pos (List.mem_cons_self _ _), hfk]
        rfl
      · rw [if_neg (by simpa using fun hc => hkq (hr ▸ hc.symm)), ih hqs]
        by_cases hkm : k ∈ qs
        · rw [if_pos hkm, if_pos (List.mem_cons_of_mem _ hkm)]
        · rw [if_neg hkm, if_neg (by
            intro hc
            rcases List.mem_cons.mp hc with h | h
            · exact hkq h
            · exact hkm h)]

theorem sortedKeys_nodup (records : List DrawRecord) :
    (List.insertionSort issueLe (by_issue_keys records)).Nodup :=
  (List.perm_insertionSort issueLe _).nodup_iff.mpr (List.nodup_dedup _)

theorem mem_sortedKeys (records : List DrawRecord) (k : String) :
    k ∈ List.insertionSort issueLe (by_issue_keys records)
      ↔ k ∈ by_issue_keys records :=
  (List.perm_insertionSort issueLe _).mem_iff

theorem out_map_issue_eq_filter (records : List DrawRecord)
    (keys : List String) :
    (keys.filterMap (by_issue_get records)).map (fun r => r.issue)
      = keys.filter (fun k => (by_issue_get records k).isSome) := by
  induction keys with
  | nil => rfl
  | cons q qs ih =>
    rcases hfk : by_issue_get records q with _ | r
    · rw [List.filterMap_cons_none hfk, List.filter_cons, if_neg (by simp [hfk]),
        ih]
    · rw [List.filterMap_cons_some hfk, List.map_cons, List.filter_cons,
        if_pos (by simp [hfk]), ih, (by_issue_get_some records q r hfk).2]

theorem out_issue_sorted (records : List DrawRecord) :
    List.Sorted issueLe
      ((dedupe_and_sort records).map (fun r => r.issue)) := by
  rw [dedupe_and_sort, out_map_issue_eq_filter]
  exact (List.sorted_insertionSort issueLe (by_issue_keys records)).filter _

theorem out_map_issue_nodup (records : List DrawRecord) :
    ((dedupe_and_sort records).map (fun r => r.issue)).Nodup := by
  rw [dedupe_and_sort, out_map_issue_eq_filter]
  exact (sortedKeys_nodup records).filter _

/-! ## Claim C5 -/

/-- C5: last-write-wins deduplication.  If the input is `pre ++ r :: suf`
where `r` has a non-empty issue, no record after `r` carries that issue
(`r` is the latest), and some earlier record `r2` carries the same issue
with different content, then the merger's output contains exactly one
record with that issue, namely `r`. -/
theorem claim_C5_last_write_wins (pre suf : List DrawRecord)
    (r r2 : DrawRecord) (hk : r.issue ≠ "")
    (hr2 : r2 ∈ pre) (hsame : r2.issue = r.issue) (hdiff : r2 ≠ r)
    (hsuf : ∀ x ∈ suf, x.issue ≠ r.issue) :
    (dedupe_and_sort (pre ++ r :: suf)).filter
        (fun x => x.issue = r.issue) = [r] := by
  have hsufnil : List.filter (fun x => decide (x.issue = r.issue)) suf = [] :=
    List.filter_eq_nil_iff.mpr (fun x hx => by simpa using hsuf x hx)
  have hget : by_issue_get (pre ++ r :: suf) r.issue = some r := by
    rw [by_issue_get, List.filter_append, List.filter_cons,
      if_pos (by simp), hsufnil]
    exact List.getLast?_concat _
  have hmem : r.issue ∈ by_issue_keys (pre ++ r :: suf) :=
    (mem_by_issue_keys _ _).mpr ⟨hk, r, by simp, rfl⟩
  rw [dedupe_and_sort,
    filterMap_filter_unique _ _ _ (sortedKeys_nodup (pre ++ r :: suf)),
    if_pos ((mem_sortedKeys _ _).mpr hmem), hget]
  rfl

/-- C5, witness: merging two same-issue records (`recB` then `recA`,
different content) yields exactly the later one, `recA`. -/
theorem claim_C5_witness :
    (dedupe_and_sort ([recB] ++ recA :: [])).filter
        (fun x => x.issue = recA.issue) = [recA] :=
  claim_C5_last_write_wins [recB] [] recA recB (by decide) (by decide)
    (by decide) (by decide) (by decide)

/-! ## Claim C6 -/

/-- C6: for every input, the issue strings of the merger's output are
non-decreasing in lexicographic string order. -/
theorem claim_C6_output_sorted (records : List DrawRecord) :
    List.Sorted (· ≤ ·)
      ((dedupe_and_sort records).map (fun r => r.issue)) :=
  (out_issue_sorted records).imp (fun h => (issueLe_iff_le _ _).mp h)

/-! ## Claim C10 -/

/-- C10: the merger only selects and reorders — every output record is an
element of the input — and the output's issue strings are strictly
increasing, hence pairwise distinct. -/
theorem claim_C10_select_distinct (records : List DrawRecord) :
    (∀ r ∈ dedupe_and_sort records, r ∈ records)
      ∧ ((dedupe_and_sort records).map (fun r => r.issue)).Pairwise
          (· < ·) := by
  constructor
  · intro r hr
    rw [dedupe_and_sort] at hr
    obtain ⟨k, _, hk⟩ := List.mem_filterMap.mp hr
    exact (by_issue_get_some records k r hk).1
  · have hs := (out_issue_sorted records).imp
      (fun h => (issueLe_iff_le _ _).mp h)
    have hn : ((dedupe_and_sort records).map (fun r => r.issue)).Pairwise
        (fun a b => a ≠ b) := out_map_issue_nodup records
    exact (hs.and hn).imp (fun h => lt_of_le_of_ne h.1 h.2)

/-! ## Claim C7: idempotence machinery -/

theorem out_issue_ne_empty (records : List DrawRecord) :
    ∀ r ∈ dedupe_and_sort records, r.issue ≠ "" := by
  intro r hr
  rw [dedupe_and_sort] at hr
  obtain ⟨k, hkmem, hk⟩ := List.mem_filterMap.mp hr
  rw [(by_issue_get_some records k r hk).2]
  exact ((mem_by_issue_keys records k).mp ((mem_sortedKeys records k).mp hkmem)).1

theorem filter_eq_single_of_nodup (l : List DrawRecord) (r : DrawRecord)
    (hnd : (l.map (fun x => x.issue)).Nodup) (hr : r ∈ l) :
    l.filter (fun x => x.issue = r.issue) = [r] := by
  induction l with
  | nil => exact absurd hr (List.not_mem_nil r)
  | cons a t ih =>
    rw [List.map_cons, List.nodup_cons] at hnd
    obtain ⟨ha, ht⟩ := hnd
    rcases List.mem_cons.mp hr with rfl | hrt
    · rw [List.filter_cons, if_pos (by simp)]
      rw [List.filter_eq_nil_iff.mpr]
      intro x hx hc
      exact ha (List.mem_map.mpr ⟨x, hx, by simpa using hc.symm⟩)
    · rw [List.filter_cons, if_neg, ih ht hrt]
      simp only [decide_eq_true_eq]
      intro hc
      exact ha (List.mem_map.mpr ⟨r, hrt, hc.symm⟩)

theorem filterMap_map_self (l : List DrawRecord)
    (g : String → Option DrawRecord)
    (hg : ∀ r ∈ l, g r.issue = some r) :
    (l.map (fun r => r.issue)).filterMap g = l := by
  induction l with
  | nil => rfl
  | cons a t ih =>
    rw [List.map_cons,
      List.filterMap_cons_some (hg a (List.mem_cons_self a t)),
      ih (fun r hr => hg r (List.mem_cons_of_mem a hr))]

/-- C7: the merger is idempotent — feeding its output back in reproduces
the same sequence. -/
theorem claim_C7_idempotent (records : List DrawRecord) :
    dedupe_and_sort (dedupe_and_sort records) = dedupe_and_sort records := by
  have hne := out_issue_ne_empty records
  have hnd := out_map_issue_nodup records
  have hsorted := out_issue_sorted records
  have hkeys : by_issue_keys (dedupe_and_sort records)
      = (dedupe_and_sort records).map (fun r => r.issue) := by
    rw [by_issue_keys, List.filter_eq_self.mpr (by
      intro r hr
      simpa using hne r hr)]
    exact List.dedup_eq_self.mpr hnd
  have hsort_eq : List.insertionSort issueLe
        ((dedupe_and_sort records).map (fun r => r.issue))
      = (dedupe_and_sort records).map (fun r => r.issue) :=
    List.Sorted.insertionSort_eq hsorted
  have hget : ∀ r ∈ dedupe_and_sort records,
      by_issue_get (dedupe_and_sort records) r.issue = some r := by
    intro r hr
    rw [by_issue_get, filter_eq_single_of_nodup _ r hnd hr]
    rfl
  conv_lhs => rw [dedupe_and_sort]
  rw [hkeys, hsort_eq]
  exact filterMap_map_self _ _ hget

/-! ## Claims C8 and C9 -/

/-- C8: exit codes.  A selftest run exits 0; a normal run exits 2 exactly
when the merged record collection over the selected sources is empty, and 0
otherwise.  (The accompanying diagnostic message is I/O and outside the
embedding.) -/
theorem claim_C8_exit_codes (cfg : Config)
    (sportteryReq sportteryUrl records500 cwlUrl : List DrawRecord) :
    (cfg.selftest = true →
        mainExit cfg sportteryReq sportteryUrl records500 cwlUrl = 0)
      ∧ (cfg.selftest = false →
        ((mainExit cfg sportteryReq sportteryUrl records500 cwlUrl = 2
            ↔ dedupe_and_sort
                (selectedRecords cfg sportteryReq sportteryUrl records500 cwlUrl)
              = [])
          ∧ (dedupe_and_sort
                (selectedRecords cfg sportteryReq sportteryUrl records500 cwlUrl)
              ≠ [] →
            mainExit cfg sportteryReq sportteryUrl records500 cwlUrl = 0))) := by
  constructor
  · intro hs
    rw [mainExit, if_pos hs]
  · intro hs
    rw [mainExit, if_neg (by simp [hs])]
    by_cases hempty : dedupe_and_sort
        (selectedRecords cfg sportteryReq sportteryUrl records500 cwlUrl) = []
    · rw [if_pos hempty]
      exact ⟨⟨fun _ => hempty, fun _ => rfl⟩, fun hne => absurd hempty hne⟩
    · rw [if_neg hempty]
      exact ⟨⟨fun h => absurd h (by omega), fun h => absurd h hempty⟩,
        fun _ => rfl⟩

/-- C9: with the requests library available, a normal run with
`--source cwl` matches no fetch branch at all — the cwl branch requires
requests to be absent — so whatever every fetch would return, it collects
zero records and exits 2. -/
theorem claim_C9_cwl_dead_branch
    (sportteryReq sportteryUrl records500 cwlUrl : List DrawRecord) :
    selectedRecords ⟨false, .cwl, true⟩
        sportteryReq sportteryUrl records500 cwlUrl = []
      ∧ mainExit ⟨false, .cwl, true⟩
        sportteryReq sportteryUrl records500 cwlUrl = 2 := by
  constructor
  · rfl
  · rfl

end FetchSSQ
